import Mathlib

/-!
# Verification of `channels-prometheus-exporter` (src/exporter.py)

Shallow embedding of the exporter's poll-transform-publish loop.

Modelling conventions:
* JSON values are the inductive `Json` below; a Python `dict.get(key, default)`
  is `pyGetD`; a `dict.get(key)` (default `None`) is `pyGet?`.
* An HTTP fetch followed by `.json()` decoding (source lines 59-60, 101-102,
  121-122) is modelled by its result, `Except FetchErr Json`: the exporter
  never inspects the request, only the decoded body or the raised exception.
* Python exceptions raised while a sub-step mutates the registry are modelled
  by `ExecResult := Except (PyErr × MetricsState) MetricsState`: an error
  carries the registry state at the moment the exception is raised, so that
  claims about which families were already cleared or repopulated are exact.
* Geolocation (`geolite2.lookup`) is an oracle parameter
  `lookup : String → Except Unit (Option (Int × Int))`: `.error` models the
  backend raising, `.ok none` models a falsy result, `.ok (some (la, lo))` a
  hit.  The exporter performs no arithmetic on the coordinates (they are only
  carried into label values), so their numeric type is irrelevant to every
  claim and `Int` stands in for the source's floats.
-/

namespace ChannelsExporter

/-- JSON values as decoded by `response.json()`.  Numbers are modelled as
integers: the exporter only ever reads `num_shows` / `num_airings` counts. -/
inductive Json where
  | null
  | bool (b : Bool)
  | num (n : Int)
  | str (s : String)
  | arr (elems : List Json)
  | obj (fields : List (String × Json))

mutual

def Json.decEq : (a b : Json) → Decidable (a = b)
  | .null, .null => isTrue rfl
  | .bool a, .bool b =>
    match Bool.decEq a b with
    | isTrue h => isTrue (h ▸ rfl)
    | isFalse h => isFalse (fun k => h (Json.bool.inj k))
  | .num a, .num b =>
    match Int.decEq a b with
    | isTrue h => isTrue (h ▸ rfl)
    | isFalse h => isFalse (fun k => h (Json.num.inj k))
  | .str a, .str b =>
    match String.decEq a b with
    | isTrue h => isTrue (h ▸ rfl)
    | isFalse h => isFalse (fun k => h (Json.str.inj k))
  | .arr as, .arr bs =>
    match Json.decEqL as bs with
    | isTrue h => isTrue (h ▸ rfl)
    | isFalse h => isFalse (fun k => h (Json.arr.inj k))
  | .obj as, .obj bs =>
    match Json.decEqF as bs with
    | isTrue h => isTrue (h ▸ rfl)
    | isFalse h => isFalse (fun k => h (Json.obj.inj k))
  | .null, .bool _ => isFalse (fun h => Json.noConfusion h)
  | .null, .num _ => isFalse (fun h => Json.noConfusion h)
  | .null, .str _ => isFalse (fun h => Json.noConfusion h)
  | .null, .arr _ => isFalse (fun h => Json.noConfusion h)
  | .null, .obj _ => isFalse (fun h => Json.noConfusion h)
  | .bool _, .null => isFalse (fun h => Json.noConfusion h)
  | .bool _, .num _ => isFalse (fun h => Json.noConfusion h)
  | .bool _, .str _ => isFalse (fun h => Json.noConfusion h)
  | .bool _, .arr _ => isFalse (fun h => Json.noConfusion h)
  | .bool _, .obj _ => isFalse (fun h => Json.noConfusion h)
  | .num _, .null => isFalse (fun h => Json.noConfusion h)
  | .num _, .bool _ => isFalse (fun h => Json.noConfusion h)
  | .num _, .str _ => isFalse (fun h => Json.noConfusion h)
  | .num _, .arr _ => isFalse (fun h => Json.noConfusion h)
  | .num _, .obj _ => isFalse (fun h => Json.noConfusion h)
  | .str _, .null => isFalse (fun h => Json.noConfusion h)
  | .str _, .bool _ => isFalse (fun h => Json.noConfusion h)
  | .str _, .num _ => isFalse (fun h => Json.noConfusion h)
  | .str _, .arr _ => isFalse (fun h => Json.noConfusion h)
  | .str _, .obj _ => isFalse (fun h => Json.noConfusion h)
  | .arr _, .null => isFalse (fun h => Json.noConfusion h)
  | .arr _, .bool _ => isFalse (fun h => Json.noConfusion h)
  | .arr _, .num _ => isFalse (fun h => Json.noConfusion h)
  | .arr _, .str _ => isFalse (fun h => Json.noConfusion h)
  | .arr _, .obj _ => isFalse (fun h => Json.noConfusion h)
  | .obj _, .null => isFalse (fun h => Json.noConfusion h)
  | .obj _, .bool _ => isFalse (fun h => Json.noConfusion h)
  | .obj _, .num _ => isFalse (fun h => Json.noConfusion h)
  | .obj _, .str _ => isFalse (fun h => Json.noConfusion h)
  | .obj _, .arr _ => isFalse (fun h => Json.noConfusion h)

def Json.decEqL : (a b : List Json) → Decidable (a = b)
  | [], [] => isTrue rfl
  | [], _ :: _ => isFalse (fun h => List.noConfusion h)
  | _ :: _, [] => isFalse (fun h => List.noConfusion h)
  | a :: as, b :: bs =>
    match Json.decEq a b with
    | isFalse h => isFalse (fun k => h (List.head_eq_of_cons_eq k))
    | isTrue h =>
      match Json.decEqL as bs with
      | isTrue h2 => isTrue (h ▸ h2 ▸ rfl)
      | isFalse h2 => isFalse (fun k => h2 (List.tail_eq_of_cons_eq k))

def Json.decEqF : (a b : List (String × Json)) → Decidable (a = b)
  | [], [] => isTrue rfl
  | [], _ :: _ => isFalse (fun h => List.noConfusion h)
  | _ :: _, [] => isFalse (fun h => List.noConfusion h)
  | (k, v) :: as, (k2, v2) :: bs =>
    match String.decEq k k2 with
    | isFalse h =>
      isFalse (fun e => h (congrArg (fun l => (l.headD (k, v)).1) e))
    | isTrue h =>
      match Json.decEq v v2 with
      | isFalse h2 =>
        isFalse (fun e => h2 (congrArg (fun l => (l.headD (k, v)).2) e))
      | isTrue h2 =>
        match Json.decEqF as bs with
        | isTrue h3 => isTrue (h ▸ h2 ▸ h3 ▸ rfl)
        | isFalse h3 => isFalse (fun e => h3 (List.tail_eq_of_cons_eq e))

end

instance : DecidableEq Json := Json.decEq

/-- `d.get(k, default)` on a JSON object's field list (first matching key). -/
def pyGetD (fields : List (String × Json)) (k : String) (d : Json) : Json :=
  match fields.find? (fun f => f.1 = k) with
  | some f => f.2
  | none => d

/-- `d.get(k)` (Python default `None` modelled as `Option.none`). -/
def pyGet? (fields : List (String × Json)) (k : String) : Option Json :=
  (fields.find? (fun f => f.1 = k)).map (fun f => f.2)

/-!
## Field extractors (source lines 70-71, 83-84, 109-111)

The source uses `re.search` with the patterns `[0-9]+(?:\.[0-9]+){3}` and
`ch[0-9]+`.  `re.search` returns the match at the leftmost starting position;
at a fixed position each `[0-9]+` group is matched greedily.  For these two
patterns greedy matching never needs to backtrack: every `[0-9]+` group is
followed either by `\.` or by nothing, and giving back a digit from a greedy
run can only place another digit (never a `.`) at the reading head.  So a
match at position `p` exists iff the maximal digit runs glued by literal
characters succeed there, and the matched text is built from those maximal
runs.  `matchQuadAt` / `matchChAt` implement exactly that, and `searchFirst`
implements the leftmost scan (both patterns reject the empty suffix, which
`re.search` also tries last, so stopping the scan at `[]` is exact).
-/

/-- Greedy `[0-9]+`: the maximal leading digit run, `none` if it is empty.
`Char.isDigit` is precisely the character class `[0-9]`. -/
def digits1 (l : List Char) : Option (List Char × List Char) :=
  if (l.takeWhile Char.isDigit).isEmpty then none
  else some (l.takeWhile Char.isDigit, l.dropWhile Char.isDigit)

/-- Greedy `\.[0-9]+`. -/
def dotDigits (l : List Char) : Option (List Char × List Char) :=
  match l with
  | [] => none
  | c :: r =>
    if c = '.' then (digits1 r).map (fun p => ('.' :: p.1, p.2)) else none

/-- Match of `[0-9]+(?:\.[0-9]+){3}` anchored at the head of `l`
(source line 70). -/
def matchQuadAt (l : List Char) : Option (List Char) :=
  match digits1 l with
  | none => none
  | some (d0, r0) =>
    match dotDigits r0 with
    | none => none
    | some (g1, r1) =>
      match dotDigits r1 with
      | none => none
      | some (g2, r2) =>
        match dotDigits r2 with
        | none => none
        | some (g3, _) => some (d0 ++ g1 ++ g2 ++ g3)

/-- Match of `ch[0-9]+` anchored at the head of `l`
(source lines 83 and 109). -/
def matchChAt (l : List Char) : Option (List Char) :=
  match l with
  | c1 :: c2 :: r =>
    if c1 = 'c' ∧ c2 = 'h' then (digits1 r).map (fun p => 'c' :: 'h' :: p.1)
    else none
  | _ => none

/-- `re.search`: try the matcher at each position left to right. -/
def searchFirst (m : List Char → Option (List Char)) : List Char → Option (List Char)
  | [] => m []
  | c :: r =>
    match m (c :: r) with
    | some s => some s
    | none => searchFirst m r

/-- Source lines 70-71:
`ip = re.search(r'[0-9]+(?:\.[0-9]+){3}', status)`;
`ip = ip.group() if ip else '127.0.0.1'`. -/
def extract_ip (text : String) : String :=
  match searchFirst matchQuadAt text.data with
  | some s => String.mk s
  | none => "127.0.0.1"

/-- Source lines 83-84 (and identically 109-110):
`channel = re.search(r'ch[0-9]+', status)`;
`channel = channel.group() if channel else 'ch0'`. -/
def extract_channel (text : String) : String :=
  match searchFirst matchChAt text.data with
  | some s => String.mk s
  | none => "ch0"

/-- Source line 111:
`status = info.split('-')[0] if '-' in info else 'unknown'`
(`split('-')[0]` is the longest `'-'`-free leading segment). -/
def extract_status (info : String) : String :=
  if '-' ∈ info.data then String.mk (info.data.takeWhile (fun c => c ≠ '-'))
  else "unknown"

/-!
## Declarative view of the regex patterns

`OccursAt t s p` : `s` occurs as a substring of `t` starting at index `p`.
`QuadShape s`    : `s` is matched by `[0-9]+(?:\.[0-9]+){3}` as a whole.
`ChShape s`      : `s` is matched by `ch[0-9]+` as a whole.
-/

def OccursAt (t s : List Char) (p : Nat) : Prop :=
  ∃ pre post, pre.length = p ∧ t = pre ++ s ++ post

def QuadShape (s : List Char) : Prop :=
  ∃ a b c d, a ≠ [] ∧ b ≠ [] ∧ c ≠ [] ∧ d ≠ [] ∧
    (∀ x ∈ a, Char.isDigit x) ∧ (∀ x ∈ b, Char.isDigit x) ∧
    (∀ x ∈ c, Char.isDigit x) ∧ (∀ x ∈ d, Char.isDigit x) ∧
    s = a ++ '.' :: (b ++ '.' :: (c ++ '.' :: d))

def ChShape (s : List Char) : Prop :=
  ∃ d, d ≠ [] ∧ (∀ x ∈ d, Char.isDigit x) ∧ s = 'c' :: 'h' :: d

/-!
## Metrics registry and the three fetch sub-steps

The registry (`MetricsState`) holds the five gauge families created in
`AppMetrics.__init__` (source lines 22-41).  A labelled family is an
association list from label combination to gauge value; `labels(...).set(v)`
is `famSet` (update in place if the combination exists, else append — the
behaviour of `prometheus_client`'s child dict), and `clear()` replaces the
list by `[]`.
-/

inductive FetchErr where
  | network
  | decode
deriving DecidableEq

/-- A Python exception: a failed fetch/JSON-decode, a `TypeError` (e.g.
`re.search` on a non-string, iterating a non-iterable, `float()` of a
non-number), or an `AttributeError` (`.get` / `.items` on a non-dict). -/
inductive PyErr where
  | fetch (e : FetchErr)
  | typeErr
  | attrErr
deriving DecidableEq

structure StreamLabels where
  ip : String
  channel : String
  latitude : Option Int
  longitude : Option Int
deriving DecidableEq

structure RecordingLabels where
  name : String
  status : String
  channel : String
deriving DecidableEq

/-- Label values of `channels_clients` (source lines 130-143).  Each is the
raw JSON value found by `client.get(...)`, `none` when the key is absent
(Python `None`).  `prometheus_client` stringifies label values, which cannot
distinguish e.g. the JSON string `"None"` from JSON `null`; no claim depends
on that corner, so the raw value is kept. -/
structure ClientLabels where
  app_build : Option Json
  app_bundle : Option Json
  app_version : Option Json
  connected : Option Json
  device : Option Json
  hostname : Option Json
  id : Option Json
  machine_id : Option Json
  platform : Option Json
  remote_ip : Option Json
  seen_at : Option Json
  seen_from : Option Json
deriving DecidableEq

structure MetricsState where
  streams : List (StreamLabels × Int)
  recordings : List (RecordingLabels × Int)
  shows : Int
  airings : Int
  clients : List (ClientLabels × Int)
deriving DecidableEq

/-- Registry right after `AppMetrics.__init__`: labelled families have no
children, scalar gauges are 0. -/
def initialState : MetricsState := ⟨[], [], 0, 0, []⟩

/-- `family.labels(k).set(v)`: update the child if the label combination
exists, else append it. -/
def famSet {L : Type} [DecidableEq L] (fam : List (L × Int)) (k : L) (v : Int) :
    List (L × Int) :=
  if fam.any (fun e => decide (e.1 = k)) then
    fam.map (fun e => if e.1 = k then (k, v) else e)
  else fam ++ [(k, v)]

/-- The geolocation backend: `.error` = the lookup raised, `.ok none` = falsy
result, `.ok (some (la, lo))` = `geo.location`. -/
def GeoLookup : Type := String → Except Unit (Option (Int × Int))

/-- Source lines 74-81 with an instrumentation trace: the returned list is
the backend invocations performed (`geolite2.lookup` is called exactly when
the guard `ip and not ip == '127.0.0.1'` passes; the `try/except: pass`
absorbs a raise, and a falsy `geo` leaves both coordinates `None`). -/
def geoEnrichT (lookup : GeoLookup) (ip : String) :
    (Option Int × Option Int) × List String :=
  if ip ≠ "" ∧ ip ≠ "127.0.0.1" then
    (match lookup ip with
      | .error _ => (none, none)
      | .ok none => (none, none)
      | .ok (some p) => (some p.1, some p.2),
     [ip])
  else ((none, none), [])

/-- The coordinates actually used by `fetch_dvr`. -/
def geoEnrich (lookup : GeoLookup) (ip : String) : Option Int × Option Int :=
  (geoEnrichT lookup ip).1

/-- One iteration of the activity loop body (source lines 69-84): extract the
ip, enrich, extract the channel. -/
def streamEntry (lookup : GeoLookup) (status : String) : StreamLabels :=
  ⟨extract_ip status, extract_channel status,
    (geoEnrich lookup (extract_ip status)).1,
    (geoEnrich lookup (extract_ip status)).2⟩

/-- The `for _, status in activities.items()` loop (source lines 69-88),
threading the streams family.  A non-string activity value makes
`re.search` raise `TypeError`, stopping the loop with the family as mutated
so far.  The publish is guarded by `if ip and channel` (line 87). -/
def streamsLoop (lookup : GeoLookup) (fam : List (StreamLabels × Int)) :
    List (String × Json) → List (StreamLabels × Int) × Option PyErr
  | [] => (fam, none)
  | (_, v) :: rest =>
    match v with
    | .str status =>
      streamsLoop lookup
        (if (streamEntry lookup status).ip ≠ "" ∧
            (streamEntry lookup status).channel ≠ "" then
          famSet fam (streamEntry lookup status) 1
        else fam) rest
    | _ => (fam, some .typeErr)

/-- One recordings entry (source lines 109-112). -/
def recordingEntry (name info : String) : RecordingLabels :=
  ⟨name, extract_status info, extract_channel info⟩

/-- The `for name, info in status_data.items()` loop (source lines 108-112). -/
def recordingsLoop (fam : List (RecordingLabels × Int)) :
    List (String × Json) → List (RecordingLabels × Int) × Option PyErr
  | [] => (fam, none)
  | (name, v) :: rest =>
    match v with
    | .str info => recordingsLoop (famSet fam (recordingEntry name info) 1) rest
    | _ => (fam, some .typeErr)

/-- One clients entry (source lines 129-143): twelve `client.get(...)`. -/
def clientEntry (fields : List (String × Json)) : ClientLabels :=
  ⟨pyGet? fields "app_build", pyGet? fields "app_bundle",
    pyGet? fields "app_version", pyGet? fields "connected",
    pyGet? fields "device", pyGet? fields "hostname",
    pyGet? fields "id", pyGet? fields "machine_id",
    pyGet? fields "platform", pyGet? fields "remote_ip",
    pyGet? fields "seen_at", pyGet? fields "seen_from"⟩

/-- The `for client in status_data` loop (source lines 128-143).  A
non-dict element makes `client.get` raise `AttributeError`. -/
def clientsLoop (fam : List (ClientLabels × Int)) :
    List Json → List (ClientLabels × Int) × Option PyErr
  | [] => (fam, none)
  | item :: rest =>
    match item with
    | .obj fields => clientsLoop (famSet fam (clientEntry fields) 1) rest
    | _ => (fam, some .attrErr)

/-- Python iteration over a decoded JSON value (`for client in status_data`):
lists iterate elements, dicts iterate their keys, strings iterate their
characters; other values raise `TypeError`. -/
def pyIter : Json → Option (List Json)
  | .arr l => some l
  | .obj fields => some (fields.map (fun f => Json.str f.1))
  | .str s => some (s.data.map (fun c => Json.str (String.mk [c])))
  | _ => none

/-- `Gauge.set(value)` coerces with `float(value)`: numbers succeed, bools
coerce to 0/1, `None`/lists/dicts raise `TypeError`.  (A numeric JSON string
would also coerce in Python; no claim exercises that corner and the guide
counts read by the exporter are numbers, so it is modelled as a raise.) -/
def pyFloat : Json → Option Int
  | .num n => some n
  | .bool b => some (if b then 1 else 0)
  | _ => none

/-- Result of running a sub-step (or a cycle, or the loop): `.ok s` is normal
completion in registry state `s`; `.error (e, s)` is a Python exception `e`
propagating with the registry left in state `s`.  The source has no
`try/except` around the sub-steps, so an `.error` escapes
`run_metrics_loop` and kills the process. -/
def ExecResult : Type := Except (PyErr × MetricsState) MetricsState

/-- `AppMetrics.fetch_dvr` (source lines 52-92). -/
def fetch_dvr (lookup : GeoLookup) (s : MetricsState)
    (resp : Except FetchErr Json) : ExecResult :=
  match resp with
  | .error e => .error (.fetch e, s)
  | .ok j =>
    match j with
    | .obj fields =>
      match pyGetD fields "activity" (.obj []) with
      | .obj acts =>
        match streamsLoop lookup [] acts with
        | (fam, some err) =>
          .error (err, ⟨fam, s.recordings, s.shows, s.airings, s.clients⟩)
        | (fam, none) =>
          match pyGetD fields "guide" (.obj []) with
          | .obj g =>
            match pyFloat (pyGetD g "num_shows" (.num 0)) with
            | some ns =>
              match pyFloat (pyGetD g "num_airings" (.num 0)) with
              | some na => .ok ⟨fam, s.recordings, ns, na, s.clients⟩
              | none =>
                .error (.typeErr, ⟨fam, s.recordings, ns, s.airings, s.clients⟩)
            | none =>
              .error (.typeErr, ⟨fam, s.recordings, s.shows, s.airings, s.clients⟩)
          | _ =>
            .error (.attrErr, ⟨fam, s.recordings, s.shows, s.airings, s.clients⟩)
      | _ =>
        .error (.attrErr, ⟨[], s.recordings, s.shows, s.airings, s.clients⟩)
    | _ => .error (.attrErr, s)

/-- `AppMetrics.fetch_recordings` (source lines 94-112). -/
def fetch_recordings (s : MetricsState) (resp : Except FetchErr Json) :
    ExecResult :=
  match resp with
  | .error e => .error (.fetch e, s)
  | .ok j =>
    match j with
    | .obj entries =>
      match recordingsLoop [] entries with
      | (fam, some err) =>
        .error (err, ⟨s.streams, fam, s.shows, s.airings, s.clients⟩)
      | (fam, none) => .ok ⟨s.streams, fam, s.shows, s.airings, s.clients⟩
    | _ => .error (.attrErr, ⟨s.streams, [], s.shows, s.airings, s.clients⟩)

/-- `AppMetrics.fetch_clients` (source lines 114-143). -/
def fetch_clients (s : MetricsState) (resp : Except FetchErr Json) :
    ExecResult :=
  match resp with
  | .error e => .error (.fetch e, s)
  | .ok j =>
    match pyIter j with
    | some items =>
      match clientsLoop [] items with
      | (fam, some err) =>
        .error (err, ⟨s.streams, s.recordings, s.shows, s.airings, fam⟩)
      | (fam, none) => .ok ⟨s.streams, s.recordings, s.shows, s.airings, fam⟩
    | none =>
      .error (.typeErr, ⟨s.streams, s.recordings, s.shows, s.airings, []⟩)

/-- The three fetch/decode results one loop cycle consumes. -/
structure CycleInput where
  dvr : Except FetchErr Json
  programs : Except FetchErr Json
  clientsInfo : Except FetchErr Json

/-- One iteration of the `while True` body (source lines 47-49): the three
sub-steps run in order, an uncaught exception aborts the cycle. -/
def runCycle (lookup : GeoLookup) (s : MetricsState) (inp : CycleInput) :
    ExecResult :=
  match fetch_dvr lookup s inp.dvr with
  | .error es => .error es
  | .ok s1 =>
    match fetch_recordings s1 inp.programs with
    | .error es => .error es
    | .ok s2 => fetch_clients s2 inp.clientsInfo

/-- `AppMetrics.run_metrics_loop` (source lines 43-50) run over a finite
prefix of cycle inputs: `.ok s` means the loop is still running with registry
state `s`; `.error (e, s)` means exception `e` escaped the loop (the process
dies) with the registry left at `s`. -/
def run_metrics_loop (lookup : GeoLookup) (s : MetricsState) :
    List CycleInput → ExecResult
  | [] => .ok s
  | inp :: rest =>
    match runCycle lookup s inp with
    | .error es => .error es
    | .ok s1 => run_metrics_loop lookup s1 rest

/-- The stream label combinations derived from a cycle's activity values. -/
def streamsOf (lookup : GeoLookup) (statuses : List String) :
    List StreamLabels :=
  statuses.filterMap (fun st =>
    if (streamEntry lookup st).ip ≠ "" ∧ (streamEntry lookup st).channel ≠ ""
    then some (streamEntry lookup st) else none)

/-- The string values among a JSON object's fields, in order. -/
def strValues (kvs : List (String × Json)) : List String :=
  kvs.filterMap (fun kv => match kv.2 with | .str s => some s | _ => none)

/-- The recording label combinations derived from a programs response. -/
def recordingsOf (entries : List (String × Json)) : List RecordingLabels :=
  entries.filterMap (fun kv => match kv.2 with
    | .str info => some (recordingEntry kv.1 info)
    | _ => none)

/-- The client label combinations derived from a clients response. -/
def clientsOf (items : List Json) : List ClientLabels :=
  items.filterMap (fun item => match item with
    | .obj fields => some (clientEntry fields)
    | _ => none)

/-- Publishing a list of label combinations into an empty family. -/
def publishAll {L : Type} [DecidableEq L] (ks : List L) : List (L × Int) :=
  ks.foldl (fun f k => famSet f k 1) []

/-- The streams-family states a concurrent scrape can observe while the
activity loop runs, starting from family `fam`: the state before each
iteration and the final state. -/
def streamsScan (lookup : GeoLookup) (fam : List (StreamLabels × Int)) :
    List (String × Json) → List (List (StreamLabels × Int))
  | [] => [fam]
  | (_, v) :: rest =>
    match v with
    | .str status =>
      fam :: streamsScan lookup
        (if (streamEntry lookup status).ip ≠ "" ∧
            (streamEntry lookup status).channel ≠ "" then
          famSet fam (streamEntry lookup status) 1
        else fam) rest
    | _ => [fam]

/-- The streams-family states observable by a concurrent scrape during one
`fetch_dvr` transition with pre-cycle family `fam0` (source lines 66-88):
the pre-cycle family, then the empty family right after `clear()`, then the
family after each `labels(...).set(1)`.  The source takes no lock, so a
scrape can land between any two of these. -/
def streamsTrace (lookup : GeoLookup) (fam0 : List (StreamLabels × Int))
    (acts : List (String × Json)) : List (List (StreamLabels × Int)) :=
  fam0 :: streamsScan lookup [] acts

/-- A geolocation backend that never finds coordinates. -/
def geoNone : GeoLookup := fun _ => .ok none

/-- A geolocation backend that always raises. -/
def geoRaise : GeoLookup := fun _ => .error ()

lemma takeWhile_append_of_all {p : Char → Bool} {xs : List Char} (ys : List Char)
    (h : ∀ x ∈ xs, p x) : (xs ++ ys).takeWhile p = xs ++ ys.takeWhile p := by
  induction xs with
  | nil => simp
  | cons x xs ih =>
    have hx : p x := h x (by simp)
    simp only [List.cons_append, List.takeWhile_cons, hx, if_true]
    rw [ih (fun a ha => h a (by simp [ha]))]

lemma dropWhile_append_of_all {p : Char → Bool} {xs : List Char} (ys : List Char)
    (h : ∀ x ∈ xs, p x) : (xs ++ ys).dropWhile p = ys.dropWhile p := by
  induction xs with
  | nil => simp
  | cons x xs ih =>
    have hx : p x := h x (by simp)
    simp only [List.cons_append, List.dropWhile_cons, hx, if_true]
    exact ih (fun a ha => h a (by simp [ha]))

/-- What a successful `digits1` says about its input. -/
lemma digits1_sound {l d r : List Char} (h : digits1 l = some (d, r)) :
    d ≠ [] ∧ (∀ x ∈ d, Char.isDigit x) ∧ l = d ++ r ∧
      (r = [] ∨ ∃ y ys, r = y :: ys ∧ ¬ Char.isDigit y) := by
  unfold digits1 at h
  split at h
  · exact absurd h (by simp)
  · rename_i he
    simp only [Option.some.injEq, Prod.mk.injEq] at h
    obtain ⟨hd, hr⟩ := h
    subst hd; subst hr
    refine ⟨by simpa [List.isEmpty_iff] using he,
      fun x hx => List.mem_takeWhile_imp hx,
      (List.takeWhile_append_dropWhile Char.isDigit l).symm, ?_⟩
    rcases hcase : l.dropWhile Char.isDigit with _ | ⟨y, ys⟩
    · exact Or.inl rfl
    · refine Or.inr ⟨y, ys, rfl, ?_⟩
      have := List.head_dropWhile_not Char.isDigit (l := l) (by simp [hcase])
      simpa [hcase] using this

/-- `digits1` on a nonempty all-digit run followed by a non-digit (or nothing)
returns exactly that run. -/
lemma digits1_exact {a rest : List Char} (ha : a ≠ [])
    (had : ∀ x ∈ a, Char.isDigit x)
    (hrest : rest = [] ∨ ∃ y ys, rest = y :: ys ∧ ¬ Char.isDigit y) :
    digits1 (a ++ rest) = some (a, rest) := by
  have ht : (a ++ rest).takeWhile Char.isDigit = a ++ rest.takeWhile Char.isDigit :=
    takeWhile_append_of_all rest had
  have hd : (a ++ rest).dropWhile Char.isDigit = rest.dropWhile Char.isDigit :=
    dropWhile_append_of_all rest had
  have hrt : rest.takeWhile Char.isDigit = [] ∧ rest.dropWhile Char.isDigit = rest := by
    rcases hrest with h | ⟨y, ys, hys, hy⟩
    · simp [h]
    · subst hys
      constructor
      · simp [List.takeWhile_cons, hy]
      · simp [List.dropWhile_cons, hy]
  unfold digits1
  rw [ht, hd, hrt.1, hrt.2, List.append_nil]
  simp [List.isEmpty_iff, ha]

/-- `digits1` on a nonempty all-digit run followed by anything succeeds, and
the (greedy) run it returns is at least as long. -/
lemma digits1_ge {a : List Char} (rest : List Char) (ha : a ≠ [])
    (had : ∀ x ∈ a, Char.isDigit x) :
    ∃ d r, digits1 (a ++ rest) = some (d, r) ∧ a.length ≤ d.length := by
  have ht : (a ++ rest).takeWhile Char.isDigit = a ++ rest.takeWhile Char.isDigit :=
    takeWhile_append_of_all rest had
  refine ⟨a ++ rest.takeWhile Char.isDigit, (a ++ rest).dropWhile Char.isDigit, ?_, ?_⟩
  · unfold digits1
    rw [ht, if_neg (by simp [List.isEmpty_iff, ha])]
  · simp

lemma dotDigits_sound {l g r : List Char} (h : dotDigits l = some (g, r)) :
    ∃ b, b ≠ [] ∧ (∀ x ∈ b, Char.isDigit x) ∧ g = '.' :: b ∧ l = g ++ r ∧
      (r = [] ∨ ∃ y ys, r = y :: ys ∧ ¬ Char.isDigit y) := by
  rcases l with _ | ⟨c, tail⟩
  · exact Option.noConfusion h
  · simp only [dotDigits] at h
    split at h
    · rename_i hc
      subst hc
      rw [Option.map_eq_some'] at h
      obtain ⟨⟨d, rr⟩, hd, hgr⟩ := h
      obtain ⟨hg, hr⟩ := Prod.mk.injEq .. ▸ hgr
      obtain ⟨hne, hdig, heq, htl⟩ := digits1_sound hd
      subst hg; subst hr
      exact ⟨d, hne, hdig, rfl, by simp [heq], htl⟩
    · exact Option.noConfusion h

lemma dotDigits_exact {b rest : List Char} (hb : b ≠ [])
    (hdig : ∀ x ∈ b, Char.isDigit x)
    (hrest : rest = [] ∨ ∃ y ys, rest = y :: ys ∧ ¬ Char.isDigit y) :
    dotDigits ('.' :: (b ++ rest)) = some ('.' :: b, rest) := by
  simp only [dotDigits]
  rw [if_pos trivial, digits1_exact hb hdig hrest]
  rfl

lemma dotDigits_ge {d : List Char} (rest : List Char) (hd : d ≠ [])
    (hdig : ∀ x ∈ d, Char.isDigit x) :
    ∃ g r, dotDigits ('.' :: (d ++ rest)) = some (g, r) ∧
      d.length + 1 ≤ g.length := by
  obtain ⟨d3, r, h1, hlen⟩ := digits1_ge rest hd hdig
  refine ⟨'.' :: d3, r, ?_, by simp; omega⟩
  simp only [dotDigits]
  rw [if_pos trivial, h1]
  rfl

lemma matchQuadAt_sound {l s : List Char} (h : matchQuadAt l = some s) :
    QuadShape s ∧ ∃ rest, l = s ++ rest := by
  unfold matchQuadAt at h
  split at h
  · exact Option.noConfusion h
  rename_i p0 d0 r0 e1
  split at h
  · exact Option.noConfusion h
  rename_i p1 g1 r1 e2
  split at h
  · exact Option.noConfusion h
  rename_i p2 g2 r2 e3
  split at h
  · exact Option.noConfusion h
  rename_i p3 g3 r3 e4
  obtain rfl := Option.some.inj h
  obtain ⟨h0ne, h0dig, h0eq, -⟩ := digits1_sound e1
  obtain ⟨b, hbne, hbdig, hg1, h1eq, -⟩ := dotDigits_sound e2
  obtain ⟨c, hcne, hcdig, hg2, h2eq, -⟩ := dotDigits_sound e3
  obtain ⟨d, hdne, hddig, hg3, h3eq, -⟩ := dotDigits_sound e4
  constructor
  · exact ⟨d0, b, c, d, h0ne, hbne, hcne, hdne, h0dig, hbdig, hcdig, hddig,
      by rw [hg1, hg2, hg3]; simp [List.append_assoc]⟩
  · refine ⟨r3, ?_⟩
    rw [h0eq, h1eq, h2eq, h3eq]
    simp [List.append_assoc]

lemma matchQuadAt_complete {s : List Char} (rest : List Char)
    (hsh : QuadShape s) :
    ∃ s2, matchQuadAt (s ++ rest) = some s2 ∧ s.length ≤ s2.length := by
  obtain ⟨a, b, c, d, ha, hb, hc, hd, hda, hdb, hdc, hdd, hs⟩ := hsh
  subst hs
  have hl : (a ++ '.' :: (b ++ '.' :: (c ++ '.' :: d))) ++ rest
      = a ++ '.' :: (b ++ '.' :: (c ++ '.' :: (d ++ rest))) := by
    simp [List.append_assoc]
  have e1 : digits1 (a ++ '.' :: (b ++ '.' :: (c ++ '.' :: (d ++ rest))))
      = some (a, '.' :: (b ++ '.' :: (c ++ '.' :: (d ++ rest)))) :=
    digits1_exact ha hda (Or.inr ⟨'.', _, rfl, by decide⟩)
  have e2 : dotDigits ('.' :: (b ++ '.' :: (c ++ '.' :: (d ++ rest))))
      = some ('.' :: b, '.' :: (c ++ '.' :: (d ++ rest))) :=
    dotDigits_exact hb hdb (Or.inr ⟨'.', _, rfl, by decide⟩)
  have e3 : dotDigits ('.' :: (c ++ '.' :: (d ++ rest)))
      = some ('.' :: c, '.' :: (d ++ rest)) :=
    dotDigits_exact hc hdc (Or.inr ⟨'.', _, rfl, by decide⟩)
  obtain ⟨g, r, e4, hlen⟩ := dotDigits_ge rest hd hdd
  refine ⟨a ++ '.' :: b ++ '.' :: c ++ g, ?_, ?_⟩
  · rw [hl]
    unfold matchQuadAt
    simp only [e1, e2, e3, e4]
  · simp only [List.length_append, List.length_cons]
    omega

lemma matchChAt_sound {l s : List Char} (h : matchChAt l = some s) :
    ChShape s ∧ ∃ rest, l = s ++ rest := by
  rcases l with _ | ⟨c1, _ | ⟨c2, r⟩⟩
  · exact Option.noConfusion h
  · exact Option.noConfusion h
  · simp only [matchChAt] at h
    split at h
    · rename_i hch
      obtain ⟨h1, h2⟩ := hch
      subst h1; subst h2
      rw [Option.map_eq_some'] at h
      obtain ⟨⟨d, rr⟩, hd, hs⟩ := h
      obtain ⟨hne, hdig, heq, -⟩ := digits1_sound hd
      subst hs
      exact ⟨⟨d, hne, hdig, rfl⟩, rr, by simp [heq]⟩
    · exact Option.noConfusion h

lemma matchChAt_complete {s : List Char} (rest : List Char) (hsh : ChShape s) :
    ∃ s2, matchChAt (s ++ rest) = some s2 ∧ s.length ≤ s2.length := by
  obtain ⟨d, hd, hdig, hs⟩ := hsh
  subst hs
  obtain ⟨d3, r, e, hlen⟩ := digits1_ge rest hd hdig
  refine ⟨'c' :: 'h' :: d3, ?_, by simp; omega⟩
  show matchChAt ('c' :: 'h' :: (d ++ rest)) = some ('c' :: 'h' :: d3)
  simp only [matchChAt]
  rw [if_pos ⟨trivial, trivial⟩, e]
  rfl

lemma occursAt_nil {s : List Char} {p : Nat} (h : OccursAt [] s p) :
    s = [] ∧ p = 0 := by
  obtain ⟨pre, post, hp, ht⟩ := h
  have h1 : pre ++ s = [] ∧ post = [] := List.append_eq_nil.mp ht.symm
  have h2 : pre = [] ∧ s = [] := List.append_eq_nil.mp h1.1
  exact ⟨h2.2, by simp [← hp, h2.1]⟩

lemma occursAt_zero {t s : List Char} : OccursAt t s 0 ↔ ∃ post, t = s ++ post := by
  constructor
  · rintro ⟨pre, post, hp, ht⟩
    rw [List.length_eq_zero.mp hp] at ht
    exact ⟨post, by simpa using ht⟩
  · rintro ⟨post, ht⟩
    exact ⟨[], post, rfl, by simpa using ht⟩

lemma occursAt_succ {c : Char} {t s : List Char} {p : Nat} :
    OccursAt (c :: t) s (p + 1) ↔ OccursAt t s p := by
  constructor
  · rintro ⟨pre, post, hp, ht⟩
    cases pre with
    | nil => simp at hp
    | cons c2 pre2 =>
      obtain ⟨h1, h2⟩ := List.cons_eq_cons.mp ht
      exact ⟨pre2, post, by simpa using hp, h2⟩
  · rintro ⟨pre, post, hp, ht⟩
    exact ⟨c :: pre, post, by simp [hp], by simp [ht]⟩

lemma occursAt_cons {c : Char} {t s : List Char} {p : Nat}
    (h : OccursAt (c :: t) s p) :
    (p = 0 ∧ ∃ post, c :: t = s ++ post) ∨ ∃ q, p = q + 1 ∧ OccursAt t s q := by
  cases p with
  | zero => exact Or.inl ⟨rfl, occursAt_zero.mp h⟩
  | succ q => exact Or.inr ⟨q, rfl, occursAt_succ.mp h⟩

/-- If `searchFirst` fails, no substring of `t` has the shape: `re.search`
returning `None` means the pattern occurs nowhere. -/
theorem searchFirst_none_charact {m : List Char → Option (List Char)}
    {Shape : List Char → Prop}
    (hC : ∀ s rest, Shape s → ∃ s2, m (s ++ rest) = some s2) :
    ∀ t, searchFirst m t = none → ∀ p s, OccursAt t s p → ¬ Shape s := by
  intro t
  induction t with
  | nil =>
    intro h p s ho hsh
    obtain ⟨hs, -⟩ := occursAt_nil ho
    obtain ⟨s2, hs2⟩ := hC s [] hsh
    rw [hs] at hs2
    simp only [List.append_nil] at hs2
    simp only [searchFirst] at h
    rw [h] at hs2
    exact Option.noConfusion hs2
  | cons c r ih =>
    intro h p s ho hsh
    have hm : m (c :: r) = none ∧ searchFirst m r = none := by
      simp only [searchFirst] at h
      rcases he : m (c :: r) with _ | s2
      · rw [he] at h; exact ⟨rfl, h⟩
      · rw [he] at h; exact Option.noConfusion h
    rcases occursAt_cons ho with ⟨-, post, hpre⟩ | ⟨q, -, hq⟩
    · obtain ⟨s2, hs2⟩ := hC s post hsh
      rw [← hpre] at hs2
      rw [hm.1] at hs2
      exact Option.noConfusion hs2
    · exact ih hm.2 q s hq hsh

/-- If `searchFirst` succeeds, the result has the shape, occurs in `t`, its
position is minimal among all shaped occurrences, and among shaped occurrences
at that position it is longest (greedy). -/
theorem searchFirst_some_charact {m : List Char → Option (List Char)}
    {Shape : List Char → Prop}
    (hS : ∀ l s, m l = some s → Shape s ∧ ∃ rest, l = s ++ rest)
    (hC : ∀ s rest, Shape s → ∃ s2, m (s ++ rest) = some s2 ∧ s.length ≤ s2.length) :
    ∀ t s, searchFirst m t = some s →
      Shape s ∧ ∃ p, OccursAt t s p ∧
        ∀ p2 s2, OccursAt t s2 p2 → Shape s2 →
          p ≤ p2 ∧ (p2 = p → s2.length ≤ s.length) := by
  intro t
  induction t with
  | nil =>
    intro s h
    simp only [searchFirst] at h
    obtain ⟨hsh, rest, hrest⟩ := hS [] s h
    have hs0 : s = [] := (List.append_eq_nil.mp hrest.symm).1
    refine ⟨hsh, 0, ⟨[], rest, rfl, by simpa using hrest⟩, ?_⟩
    intro p2 s2 ho2 hsh2
    obtain ⟨hs2, hp2⟩ := occursAt_nil ho2
    exact ⟨by omega, fun _ => by simp [hs2, hs0]⟩
  | cons c r ih =>
    intro s h
    simp only [searchFirst] at h
    rcases he : m (c :: r) with _ | s1
    · rw [he] at h
      obtain ⟨hsh, p, hocc, hmin⟩ := ih s h
      refine ⟨hsh, p + 1, occursAt_succ.mpr hocc, ?_⟩
      intro p2 s2 ho2 hsh2
      rcases occursAt_cons ho2 with ⟨hp20, post, hpre⟩ | ⟨q, hq, hoq⟩
      · obtain ⟨s3, hs3, -⟩ := hC s2 post hsh2
        rw [← hpre, he] at hs3
        exact Option.noConfusion hs3
      · obtain ⟨hle, hlen⟩ := hmin q s2 hoq hsh2
        exact ⟨by omega, fun hp2 => hlen (by omega)⟩
    · rw [he] at h
      rw [show s1 = s from Option.some.inj h] at he
      obtain ⟨hsh, rest, hrest⟩ := hS (c :: r) s he
      refine ⟨hsh, 0, occursAt_zero.mpr ⟨rest, hrest⟩, ?_⟩
      intro p2 s2 ho2 hsh2
      refine ⟨Nat.zero_le _, fun hp2 => ?_⟩
      subst hp2
      obtain ⟨post, hpost⟩ := occursAt_zero.mp ho2
      obtain ⟨s3, hs3, hlen⟩ := hC s2 post hsh2
      rw [← hpost, he] at hs3
      rw [show s = s3 from Option.some.inj hs3]
      exact hlen

section FamilyLemmas

variable {L : Type} [DecidableEq L]

lemma famSet_values_one {fam : List (L × Int)} (hall : ∀ e ∈ fam, e.2 = 1)
    (k : L) : ∀ e ∈ famSet fam k 1, e.2 = 1 := by
  intro e he
  unfold famSet at he
  split at he
  · obtain ⟨e2, he2, hmap⟩ := List.mem_map.mp he
    by_cases hk : e2.1 = k
    · rw [if_pos hk] at hmap
      rw [← hmap]
    · rw [if_neg hk] at hmap
      rw [← hmap]
      exact hall e2 he2
  · rcases List.mem_append.mp he with h | h
    · exact hall e h
    · simp at h
      simp [h]

lemma mem_famSet_one {fam : List (L × Int)} (k k2 : L) :
    (k2, (1 : Int)) ∈ famSet fam k 1 ↔ (k2 = k ∨ (k2, (1 : Int)) ∈ fam) := by
  unfold famSet
  split
  · rename_i hany
    obtain ⟨w, hw, hwk⟩ := List.any_eq_true.mp hany
    simp only [decide_eq_true_eq] at hwk
    constructor
    · intro hm
      obtain ⟨e2, he2, hmap⟩ := List.mem_map.mp hm
      by_cases hk : e2.1 = k
      · rw [if_pos hk] at hmap
        exact Or.inl (Prod.mk.injEq .. ▸ hmap).1.symm
      · rw [if_neg hk] at hmap
        exact Or.inr (hmap ▸ he2)
    · rintro (rfl | hm)
      · exact List.mem_map.mpr ⟨w, hw, by rw [if_pos hwk]⟩
      · by_cases hk : k2 = k
        · subst hk
          exact List.mem_map.mpr ⟨w, hw, by rw [if_pos hwk]⟩
        · exact List.mem_map.mpr ⟨(k2, 1), hm, by rw [if_neg hk]⟩
  · constructor
    · intro hm
      rcases List.mem_append.mp hm with h | h
      · exact Or.inr h
      · simp at h
        exact Or.inl h
    · rintro (rfl | hm)
      · exact List.mem_append.mpr (Or.inr (by simp))
      · exact List.mem_append.mpr (Or.inl hm)

lemma mem_foldl_famSet :
    ∀ (ks : List L) (fam : List (L × Int)), (∀ e ∈ fam, e.2 = 1) →
      (∀ e ∈ ks.foldl (fun f k => famSet f k 1) fam, e.2 = 1) ∧
      ∀ k2, ((k2, (1 : Int)) ∈ ks.foldl (fun f k => famSet f k 1) fam ↔
        (k2 ∈ ks ∨ (k2, (1 : Int)) ∈ fam)) := by
  intro ks
  induction ks with
  | nil => exact fun fam hall => ⟨hall, fun k2 => by simp⟩
  | cons k rest ih =>
    intro fam hall
    have h1 := famSet_values_one hall k
    obtain ⟨ihv, ihm⟩ := ih (famSet fam k 1) h1
    refine ⟨by simpa using ihv, fun k2 => ?_⟩
    simp only [List.foldl_cons]
    rw [ihm k2, mem_famSet_one k k2, List.mem_cons]
    tauto

lemma mem_publishAll {ks : List L} {k : L} {v : Int} :
    (k, v) ∈ publishAll ks ↔ (v = 1 ∧ k ∈ ks) := by
  obtain ⟨hv, hm⟩ := mem_foldl_famSet ks [] (by simp)
  constructor
  · intro h
    have h1 : v = 1 := hv (k, v) h
    subst h1
    have := (hm k).mp h
    simpa using this
  · rintro ⟨rfl, hk⟩
    exact (hm k).mpr (Or.inl hk)

end FamilyLemmas

lemma streamsLoop_eq (lookup : GeoLookup) :
    ∀ (acts : List (String × Json)) (fam : List (StreamLabels × Int)),
      (∀ kv ∈ acts, ∃ st, kv.2 = Json.str st) →
      streamsLoop lookup fam acts
        = ((streamsOf lookup (strValues acts)).foldl
            (fun f k => famSet f k 1) fam, none) := by
  intro acts
  induction acts with
  | nil => intro fam h; simp [streamsLoop, streamsOf, strValues]
  | cons kv rest ih =>
    intro fam h
    obtain ⟨st, hst⟩ := h kv (by simp)
    rcases kv with ⟨name, v⟩
    simp only at hst
    subst hst
    simp only [streamsLoop]
    rw [ih _ (fun kv2 hkv2 => h kv2 (by simp [hkv2]))]
    simp only [strValues, streamsOf, List.filterMap_cons]
    split <;> simp [streamsOf]

lemma streamsLoop_ok_strings (lookup : GeoLookup) :
    ∀ (acts : List (String × Json)) (fam fam2 : List (StreamLabels × Int)),
      streamsLoop lookup fam acts = (fam2, none) →
      ∀ kv ∈ acts, ∃ st, kv.2 = Json.str st := by
  intro acts
  induction acts with
  | nil => intro fam fam2 h kv hkv; simp at hkv
  | cons kv0 rest ih =>
    intro fam fam2 h kv hkv
    rcases kv0 with ⟨name, v⟩
    cases v with
    | str st =>
      simp only [streamsLoop] at h
      rcases List.mem_cons.mp hkv with rfl | hm
      · exact ⟨st, rfl⟩
      · exact ih _ _ h kv hm
    | null => simp [streamsLoop] at h
    | bool b => simp [streamsLoop] at h
    | num n => simp [streamsLoop] at h
    | arr l => simp [streamsLoop] at h
    | obj l => simp [streamsLoop] at h

lemma recordingsLoop_eq :
    ∀ (entries : List (String × Json)) (fam : List (RecordingLabels × Int)),
      (∀ kv ∈ entries, ∃ st, kv.2 = Json.str st) →
      recordingsLoop fam entries
        = ((recordingsOf entries).foldl (fun f k => famSet f k 1) fam, none) := by
  intro entries
  induction entries with
  | nil => intro fam h; simp [recordingsLoop, recordingsOf]
  | cons kv rest ih =>
    intro fam h
    obtain ⟨st, hst⟩ := h kv (by simp)
    rcases kv with ⟨name, v⟩
    simp only at hst
    subst hst
    simp only [recordingsLoop]
    rw [ih _ (fun kv2 hkv2 => h kv2 (by simp [hkv2]))]
    simp [recordingsOf]

lemma recordingsLoop_ok_strings :
    ∀ (entries : List (String × Json)) (fam fam2 : List (RecordingLabels × Int)),
      recordingsLoop fam entries = (fam2, none) →
      ∀ kv ∈ entries, ∃ st, kv.2 = Json.str st := by
  intro entries
  induction entries with
  | nil => intro fam fam2 h kv hkv; simp at hkv
  | cons kv0 rest ih =>
    intro fam fam2 h kv hkv
    rcases kv0 with ⟨name, v⟩
    cases v with
    | str st =>
      simp only [recordingsLoop] at h
      rcases List.mem_cons.mp hkv with rfl | hm
      · exact ⟨st, rfl⟩
      · exact ih _ _ h kv hm
    | null => simp [recordingsLoop] at h
    | bool b => simp [recordingsLoop] at h
    | num n => simp [recordingsLoop] at h
    | arr l => simp [recordingsLoop] at h
    | obj l => simp [recordingsLoop] at h

lemma clientsLoop_eq :
    ∀ (items : List Json) (fam : List (ClientLabels × Int)),
      (∀ it ∈ items, ∃ fs, it = Json.obj fs) →
      clientsLoop fam items
        = ((clientsOf items).foldl (fun f k => famSet f k 1) fam, none) := by
  intro items
  induction items with
  | nil => intro fam h; simp [clientsLoop, clientsOf]
  | cons it rest ih =>
    intro fam h
    obtain ⟨fs, hfs⟩ := h it (by simp)
    subst hfs
    simp only [clientsLoop]
    rw [ih _ (fun it2 hit2 => h it2 (by simp [hit2]))]
    simp [clientsOf]

lemma clientsLoop_ok_objs :
    ∀ (items : List Json) (fam fam2 : List (ClientLabels × Int)),
      clientsLoop fam items = (fam2, none) →
      ∀ it ∈ items, ∃ fs, it = Json.obj fs := by
  intro items
  induction items with
  | nil => intro fam fam2 h it hit; simp at hit
  | cons it0 rest ih =>
    intro fam fam2 h it hit
    cases it0 with
    | obj fs =>
      simp only [clientsLoop] at h
      rcases List.mem_cons.mp hit with rfl | hm
      · exact ⟨fs, rfl⟩
      · exact ih _ _ h it hm
    | null => simp [clientsLoop] at h
    | bool b => simp [clientsLoop] at h
    | num n => simp [clientsLoop] at h
    | str s => simp [clientsLoop] at h
    | arr l => simp [clientsLoop] at h

lemma streamsScan_cons_shape (lookup : GeoLookup) (acts : List (String × Json))
    (fam : List (StreamLabels × Int)) :
    ∃ t, streamsScan lookup fam acts = fam :: t := by
  cases acts with
  | nil => exact ⟨[], rfl⟩
  | cons kv rest =>
    rcases kv with ⟨name, v⟩
    cases v with
    | str st => exact ⟨_, rfl⟩
    | null => exact ⟨[], rfl⟩
    | bool b => exact ⟨[], rfl⟩
    | num n => exact ⟨[], rfl⟩
    | arr l => exact ⟨[], rfl⟩
    | obj l => exact ⟨[], rfl⟩

lemma streamsScan_last (lookup : GeoLookup) :
    ∀ (acts : List (String × Json)) (fam : List (StreamLabels × Int)),
      (streamsScan lookup fam acts).getLast?
        = some (streamsLoop lookup fam acts).1 := by
  intro acts
  induction acts with
  | nil => intro fam; simp [streamsScan, streamsLoop]
  | cons kv rest ih =>
    intro fam
    rcases kv with ⟨name, v⟩
    cases v with
    | str st =>
      simp only [streamsScan, streamsLoop]
      obtain ⟨t, ht⟩ := streamsScan_cons_shape lookup rest
        (if (streamEntry lookup st).ip ≠ "" ∧
            (streamEntry lookup st).channel ≠ "" then
          famSet fam (streamEntry lookup st) 1
        else fam)
      rw [ht, List.getLast?_cons_cons, ← ht, ih]
    | null => simp [streamsScan, streamsLoop]
    | bool b => simp [streamsScan, streamsLoop]
    | num n => simp [streamsScan, streamsLoop]
    | arr l => simp [streamsScan, streamsLoop]
    | obj l => simp [streamsScan, streamsLoop]

lemma nil_mem_streamsTrace (lookup : GeoLookup)
    (fam0 : List (StreamLabels × Int)) (acts : List (String × Json)) :
    ([] : List (StreamLabels × Int)) ∈ streamsTrace lookup fam0 acts := by
  obtain ⟨t, ht⟩ := streamsScan_cons_shape lookup acts []
  simp [streamsTrace, ht]

lemma streamsTrace_last (lookup : GeoLookup) (fam0 : List (StreamLabels × Int))
    (acts : List (String × Json)) :
    (streamsTrace lookup fam0 acts).getLast?
      = some (streamsLoop lookup [] acts).1 := by
  unfold streamsTrace
  obtain ⟨t, ht⟩ := streamsScan_cons_shape lookup acts []
  rw [ht, List.getLast?_cons_cons, ← ht, streamsScan_last]

lemma fetch_dvr_ok_inv {lookup : GeoLookup} {s s2 : MetricsState} {j : Json}
    (h : fetch_dvr lookup s (.ok j) = .ok s2) :
    ∃ fields acts g ns na,
      j = Json.obj fields ∧
      pyGetD fields "activity" (.obj []) = Json.obj acts ∧
      streamsLoop lookup [] acts = (s2.streams, none) ∧
      pyGetD fields "guide" (.obj []) = Json.obj g ∧
      pyFloat (pyGetD g "num_shows" (.num 0)) = some ns ∧
      pyFloat (pyGetD g "num_airings" (.num 0)) = some na ∧
      s2 = ⟨s2.streams, s.recordings, ns, na, s.clients⟩ := by
  cases j with
  | obj fields =>
    simp only [fetch_dvr] at h
    split at h
    case h_2 => exact absurd h (by simp)
    case h_1 acts hact =>
      split at h
      case h_1 => exact absurd h (by simp)
      case h_2 fam hloop =>
        split at h
        case h_2 => exact absurd h (by simp)
        case h_1 g hguide =>
          split at h
          case h_2 => exact absurd h (by simp)
          case h_1 ns hns =>
            split at h
            case h_2 => exact absurd h (by simp)
            case h_1 na hna =>
              obtain rfl := Except.ok.inj h
              exact ⟨fields, acts, g, ns, na, rfl, hact, hloop, hguide,
                hns, hna, rfl⟩
  | null => exact absurd h (by simp [fetch_dvr])
  | bool b => exact absurd h (by simp [fetch_dvr])
  | num n => exact absurd h (by simp [fetch_dvr])
  | str st => exact absurd h (by simp [fetch_dvr])
  | arr l => exact absurd h (by simp [fetch_dvr])

lemma fetch_recordings_ok_inv {s s2 : MetricsState} {j : Json}
    (h : fetch_recordings s (.ok j) = .ok s2) :
    ∃ entries, j = Json.obj entries ∧
      recordingsLoop [] entries = (s2.recordings, none) ∧
      s2 = ⟨s.streams, s2.recordings, s.shows, s.airings, s.clients⟩ := by
  cases j with
  | obj entries =>
    simp only [fetch_recordings] at h
    split at h
    case h_1 => exact absurd h (by simp)
    case h_2 fam hloop =>
      obtain rfl := Except.ok.inj h
      exact ⟨entries, rfl, hloop, rfl⟩
  | null => exact absurd h (by simp [fetch_recordings])
  | bool b => exact absurd h (by simp [fetch_recordings])
  | num n => exact absurd h (by simp [fetch_recordings])
  | str st => exact absurd h (by simp [fetch_recordings])
  | arr l => exact absurd h (by simp [fetch_recordings])

lemma fetch_clients_ok_inv {s s2 : MetricsState} {j : Json}
    (h : fetch_clients s (.ok j) = .ok s2) :
    ∃ items, pyIter j = some items ∧
      clientsLoop [] items = (s2.clients, none) ∧
      s2 = ⟨s.streams, s.recordings, s.shows, s.airings, s2.clients⟩ := by
  simp only [fetch_clients] at h
  split at h
  case h_2 => exact absurd h (by simp)
  case h_1 items hiter =>
    split at h
    case h_1 => exact absurd h (by simp)
    case h_2 fam hloop =>
      obtain rfl := Except.ok.inj h
      exact ⟨items, hiter, hloop, rfl⟩

lemma quadShape_ne_nil {s : List Char} (h : QuadShape s) : s ≠ [] := by
  obtain ⟨a, b, c, d, -, -, -, -, -, -, -, -, hs⟩ := h
  subst hs
  intro h2
  exact List.noConfusion (List.append_eq_nil.mp h2).2

lemma chShape_ne_nil {s : List Char} (h : ChShape s) : s ≠ [] := by
  obtain ⟨d, -, -, hs⟩ := h
  subst hs
  exact List.noConfusion

lemma extract_ip_ne_empty (t : String) : extract_ip t ≠ "" := by
  unfold extract_ip
  split
  · rename_i s hq
    obtain ⟨hsh, -⟩ := searchFirst_some_charact
      (fun l s h => matchQuadAt_sound h)
      (fun s rest h => matchQuadAt_complete rest h) t.data s hq
    intro he
    exact quadShape_ne_nil hsh (congrArg String.data he)
  · intro he
    exact absurd (congrArg String.data he) (by simp)

lemma extract_channel_ne_empty (t : String) : extract_channel t ≠ "" := by
  unfold extract_channel
  split
  · rename_i s hq
    obtain ⟨hsh, -⟩ := searchFirst_some_charact
      (fun l s h => matchChAt_sound h)
      (fun s rest h => matchChAt_complete rest h) t.data s hq
    intro he
    exact chShape_ne_nil hsh (congrArg String.data he)
  · intro he
    exact absurd (congrArg String.data he) (by simp)

/-- The publish guard `if ip and channel` (source line 87) never fails, so
`streamsOf` keeps every status. -/
lemma streamsOf_length (lookup : GeoLookup) (statuses : List String) :
    (streamsOf lookup statuses).length = statuses.length := by
  induction statuses with
  | nil => rfl
  | cons st rest ih =>
    have hip : (streamEntry lookup st).ip ≠ "" := extract_ip_ne_empty st
    have hch : (streamEntry lookup st).channel ≠ "" := extract_channel_ne_empty st
    simp only [streamsOf, List.filterMap_cons] at ih ⊢
    rw [if_pos ⟨hip, hch⟩]
    simp [ih]

lemma pyGetD_of_absent {fields : List (String × Json)} {k : String}
    (h : ∀ v, (k, v) ∉ fields) (d : Json) : pyGetD fields k d = d := by
  unfold pyGetD
  have hnone : fields.find? (fun f => decide (f.1 = k)) = none := by
    rw [List.find?_eq_none]
    intro f hf hk
    simp only [decide_eq_true_eq] at hk
    refine h f.2 ?_
    rw [← hk]
    simpa using hf
  rw [hnone]

lemma strValues_length {kvs : List (String × Json)}
    (h : ∀ kv ∈ kvs, ∃ st, kv.2 = Json.str st) :
    (strValues kvs).length = kvs.length := by
  induction kvs with
  | nil => rfl
  | cons kv rest ih =>
    obtain ⟨st, hst⟩ := h kv (by simp)
    rcases kv with ⟨name, v⟩
    simp only at hst
    subst hst
    simp only [strValues, List.filterMap_cons]
    have ihr := ih (fun kv2 hkv2 => h kv2 (by simp [hkv2]))
    simp only [strValues] at ihr
    simp [ihr]

/-!
## Claims
-/

/-- **C3.**  For every input text, the IP extraction returns the first
substring matching four dot-separated groups of one-or-more digits (leftmost
occurrence; at that position the greedy match, hence the longest; no 0-255
range check is performed), and returns `"127.0.0.1"` when the text contains
no such substring.  Totality and determinism hold because `extract_ip` is a
total Lean function. -/
theorem C3_extract_ip_first_quad (t : String) :
    ((¬ ∃ p s, OccursAt t.data s p ∧ QuadShape s) →
      extract_ip t = "127.0.0.1") ∧
    ((∃ p s, OccursAt t.data s p ∧ QuadShape s) →
      ∃ q u, extract_ip t = String.mk u ∧ OccursAt t.data u q ∧ QuadShape u ∧
        ∀ p2 s2, OccursAt t.data s2 p2 → QuadShape s2 →
          q ≤ p2 ∧ (p2 = q → s2.length ≤ u.length)) := by
  constructor
  · intro hno
    unfold extract_ip
    split
    · rename_i s hq
      obtain ⟨hsh, p, hocc, -⟩ := searchFirst_some_charact
        (fun l s h => matchQuadAt_sound h)
        (fun s rest h => matchQuadAt_complete rest h) t.data s hq
      exact absurd ⟨p, s, hocc, hsh⟩ hno
    · rfl
  · rintro ⟨p, s, hocc, hsh⟩
    rcases hq : searchFirst matchQuadAt t.data with _ | sm
    · exact absurd hsh (searchFirst_none_charact
        (fun s rest h =>
          match matchQuadAt_complete rest h with
          | ⟨s2, h1, _⟩ => ⟨s2, h1⟩)
        t.data hq p s hocc)
    · obtain ⟨hsh2, q, hocc2, hmin⟩ := searchFirst_some_charact
        (fun l s h => matchQuadAt_sound h)
        (fun s rest h => matchQuadAt_complete rest h) t.data sm hq
      refine ⟨q, sm, ?_, hocc2, hsh2, hmin⟩
      unfold extract_ip
      rw [hq]

/-- Witness for C3: `""` has no dotted quad and yields the default;
`"a 999.999.999.999"` contains one (no 0-255 bound check) and the theorem
applies to it. -/
theorem C3_witness :
    extract_ip "" = "127.0.0.1" ∧
    (∃ q u, extract_ip "a 999.999.999.999" = String.mk u ∧
      OccursAt ("a 999.999.999.999").data u q ∧ QuadShape u ∧
      ∀ p2 s2, OccursAt ("a 999.999.999.999").data s2 p2 → QuadShape s2 →
        q ≤ p2 ∧ (p2 = q → s2.length ≤ u.length)) := by
  constructor
  · refine (C3_extract_ip_first_quad "").1 ?_
    rintro ⟨p, s, hocc, hsh⟩
    exact quadShape_ne_nil hsh (occursAt_nil hocc).1
  · refine (C3_extract_ip_first_quad _).2
      ⟨2, ("999.999.999.999").data, ⟨"a ".data, [], by decide, by decide⟩,
        "999".data, "999".data, "999".data, "999".data,
        by decide, by decide, by decide, by decide,
        by decide, by decide, by decide, by decide, by decide⟩

/-- **C4.**  For every input text, the status extraction returns the
substring before the first `'-'` when the text contains one (the returned
prefix is `'-'`-free and is followed in the text by `'-'`), and returns
`"unknown"` otherwise; in particular `"REC-showname"` yields `"REC"` and
`"noseparator"` yields `"unknown"`. -/
theorem C4_extract_status (t : String) :
    ('-' ∈ t.data → ∃ rest, t.data = (extract_status t).data ++ '-' :: rest ∧
      '-' ∉ (extract_status t).data) ∧
    ('-' ∉ t.data → extract_status t = "unknown") ∧
    extract_status "REC-showname" = "REC" ∧
    extract_status "noseparator" = "unknown" := by
  refine ⟨?_, ?_, by decide, by decide⟩
  · intro hm
    unfold extract_status
    rw [if_pos hm]
    have hsplit := List.takeWhile_append_dropWhile
      (fun c => decide (c ≠ '-')) t.data
    have hne : t.data.dropWhile (fun c => decide (c ≠ '-')) ≠ [] := by
      intro h0
      have hall := List.dropWhile_eq_nil_iff.mp h0
      have := hall '-' hm
      simp at this
    obtain ⟨y, ys, hys⟩ := List.exists_cons_of_ne_nil hne
    have hy2 : y = '-' := by
      have := List.head_dropWhile_not
        (fun c => decide (c ≠ '-')) (l := t.data) hne
      simp only [hys] at this
      simpa using this
    refine ⟨ys, ?_, ?_⟩
    · conv_lhs => rw [← hsplit]
      rw [hys, hy2]
    · intro hmem
      have := List.mem_takeWhile_imp hmem
      simp at this
  · intro hm
    unfold extract_status
    rw [if_neg hm]

/-- Witness for C4: apply the theorem at `"REC-showname"` (which contains
`'-'`) and at `"noseparator"` (which does not). -/
theorem C4_witness :
    (∃ rest, ("REC-showname").data
        = (extract_status "REC-showname").data ++ '-' :: rest ∧
      '-' ∉ (extract_status "REC-showname").data) ∧
    extract_status "noseparator" = "unknown" :=
  ⟨(C4_extract_status "REC-showname").1 (by decide),
   (C4_extract_status "noseparator").2.1 (by decide)⟩

/-- **C5.**  For every input text, the channel extraction returns the first
substring matching literal `ch` followed by one-or-more digits (leftmost
occurrence; greedy, hence longest, at that position), and returns `"ch0"`
when no such substring exists; the same `extract_channel` is the extraction
used for stream activity strings (`streamEntry`) and for recording info
strings (`recordingEntry`). -/
theorem C5_extract_channel_first (t : String) :
    ((¬ ∃ p s, OccursAt t.data s p ∧ ChShape s) → extract_channel t = "ch0") ∧
    ((∃ p s, OccursAt t.data s p ∧ ChShape s) →
      ∃ q u, extract_channel t = String.mk u ∧ OccursAt t.data u q ∧
        ChShape u ∧
        ∀ p2 s2, OccursAt t.data s2 p2 → ChShape s2 →
          q ≤ p2 ∧ (p2 = q → s2.length ≤ u.length)) ∧
    (∀ lookup st, (streamEntry lookup st).channel = extract_channel st) ∧
    (∀ name info, (recordingEntry name info).channel = extract_channel info) := by
  refine ⟨?_, ?_, fun lookup st => rfl, fun name info => rfl⟩
  · intro hno
    unfold extract_channel
    split
    · rename_i s hq
      obtain ⟨hsh, p, hocc, -⟩ := searchFirst_some_charact
        (fun l s h => matchChAt_sound h)
        (fun s rest h => matchChAt_complete rest h) t.data s hq
      exact absurd ⟨p, s, hocc, hsh⟩ hno
    · rfl
  · rintro ⟨p, s, hocc, hsh⟩
    rcases hq : searchFirst matchChAt t.data with _ | sm
    · exact absurd hsh (searchFirst_none_charact
        (fun s rest h =>
          match matchChAt_complete rest h with
          | ⟨s2, h1, _⟩ => ⟨s2, h1⟩)
        t.data hq p s hocc)
    · obtain ⟨hsh2, q, hocc2, hmin⟩ := searchFirst_some_charact
        (fun l s h => matchChAt_sound h)
        (fun s rest h => matchChAt_complete rest h) t.data sm hq
      refine ⟨q, sm, ?_, hocc2, hsh2, hmin⟩
      unfold extract_channel
      rw [hq]

/-- Witness for C5: `"watch tv"` contains no `ch`+digits substring (the `ch`
of `watch` is followed by a space) and yields `"ch0"`;
`"a ch10 ch5"` contains one and the theorem applies to it. -/
theorem C5_witness :
    extract_channel "watch tv" = "ch0" ∧
    (∃ q u, extract_channel "a ch10 ch5" = String.mk u ∧
      OccursAt ("a ch10 ch5").data u q ∧ ChShape u ∧
      ∀ p2 s2, OccursAt ("a ch10 ch5").data s2 p2 → ChShape s2 →
        q ≤ p2 ∧ (p2 = q → s2.length ≤ u.length)) := by
  constructor
  · refine (C5_extract_channel_first "watch tv").1 ?_
    rintro ⟨p, s, hocc, hsh⟩
    exact searchFirst_none_charact
      (fun s rest h =>
        match matchChAt_complete rest h with
        | ⟨s2, h1, _⟩ => ⟨s2, h1⟩)
      ("watch tv").data (by decide) p s hocc hsh
  · refine (C5_extract_channel_first _).2.1
      ⟨2, ("ch10").data, ⟨"a ".data, " ch5".data, by decide, by decide⟩,
        "10".data, by decide, by decide, by decide⟩

/-- **C10.**  Every activity entry publishes exactly one `channels_streams`
sample: the guard `if ip and channel` can never fail because both extractions
always return a nonempty string, so `streamsOf` keeps one label combination
per status and no entry is dropped; over a full activity mapping of string
values the number of published samples equals the number of entries. -/
theorem C10_no_activity_dropped (lookup : GeoLookup) (statuses : List String)
    (acts : List (String × Json)) :
    (streamsOf lookup statuses).length = statuses.length ∧
    (∀ st ∈ statuses, (streamEntry lookup st).ip ≠ "" ∧
      (streamEntry lookup st).channel ≠ "") ∧
    ((∀ kv ∈ acts, ∃ st, kv.2 = Json.str st) →
      (streamsOf lookup (strValues acts)).length = acts.length) :=
  ⟨streamsOf_length lookup statuses,
   fun st _ => ⟨extract_ip_ne_empty st, extract_channel_ne_empty st⟩,
   fun h => by rw [streamsOf_length, strValues_length h]⟩

/-- Witness for C10 on the spec's scenario-1 activity entry. -/
theorem C10_witness :
    (streamsOf geoNone ["ch12 Streaming from 10.0.0.5"]).length = 1 ∧
    ((streamEntry geoNone "ch12 Streaming from 10.0.0.5").ip ≠ "" ∧
      (streamEntry geoNone "ch12 Streaming from 10.0.0.5").channel ≠ "") ∧
    (streamsOf geoNone
      (strValues [("a1", Json.str "ch12 Streaming from 10.0.0.5")])).length
      = 1 := by
  obtain ⟨h1, h2, h3⟩ := C10_no_activity_dropped geoNone
    ["ch12 Streaming from 10.0.0.5"]
    [("a1", Json.str "ch12 Streaming from 10.0.0.5")]
  exact ⟨h1, h2 _ (by simp), h3 (by simp)⟩

/-- **C1 (counterexample).**  The claim says a fetch failure in one sub-step
is skipped, the other two sub-steps still run in the same cycle, and the
loop continues.  In the code there is no `try/except` around the sub-steps:
with a network failure on `/dvr` in the first cycle (and well-formed
responses for the other two sub-steps, and a well-formed second cycle
available), the loop terminates with the uncaught exception, the registry is
left untouched — in particular the recordings family is still empty — even
though feeding the same programs response to `fetch_recordings` directly
would have published an entry. -/
theorem C1_counterexample :
    run_metrics_loop geoNone initialState
      [⟨.error .network, .ok (.obj [("MyShow", Json.str "REC-ch5")]),
          .ok (.arr [])⟩,
        ⟨.ok (.obj []), .ok (.obj []), .ok (.arr [])⟩]
      = .error (.fetch .network, initialState) ∧
    initialState.recordings = [] ∧
    fetch_recordings initialState (.ok (.obj [("MyShow", Json.str "REC-ch5")]))
      = .ok ⟨[], [(⟨"MyShow", "REC", "ch5"⟩, 1)], 0, 0, []⟩ :=
  ⟨rfl, rfl, rfl⟩

/-- **C1 (amended).**  A fetch or JSON-decode failure in any of the three
sub-steps raises an uncaught exception that terminates the poll loop
immediately, with the registry left at the state reached before the failure:
a dvr failure leaves it completely unchanged; a programs failure leaves it at
the state the dvr sub-step committed; a clients failure leaves it at the
state the dvr and programs sub-steps committed.  In every case the failing
cycle's later sub-steps and all later cycles never run (the loop's result is
the error itself, with `rest` unconsumed). -/
theorem C1_amended (lookup : GeoLookup) (s s1 s2 : MetricsState)
    (e : FetchErr) (d p c : Except FetchErr Json) (rest : List CycleInput) :
    run_metrics_loop lookup s (⟨.error e, p, c⟩ :: rest)
      = .error (.fetch e, s) ∧
    (fetch_dvr lookup s d = .ok s1 →
      run_metrics_loop lookup s (⟨d, .error e, c⟩ :: rest)
        = .error (.fetch e, s1)) ∧
    (fetch_dvr lookup s d = .ok s1 → fetch_recordings s1 p = .ok s2 →
      run_metrics_loop lookup s (⟨d, p, .error e⟩ :: rest)
        = .error (.fetch e, s2)) := by
  refine ⟨rfl, ?_, ?_⟩
  · intro h1
    simp only [run_metrics_loop, runCycle, h1, fetch_recordings]
  · intro h1 h2
    simp only [run_metrics_loop, runCycle, h1, h2, fetch_clients]

/-- Witness for C1 (amended): a decode failure on the programs sub-step and
a network failure on the clients sub-step, each after genuinely successful
earlier sub-steps, terminate the loop with the registry at the mid-cycle
state. -/
theorem C1_amended_witness :
    run_metrics_loop geoNone initialState
      [⟨.ok (.obj []), .error .decode, .ok (.arr [])⟩]
      = .error (.fetch .decode, initialState) ∧
    run_metrics_loop geoNone initialState
      [⟨.ok (.obj []), .ok (.obj [("MyShow", Json.str "REC-ch5")]),
          .error .network⟩]
      = .error (.fetch .network,
          ⟨[], [(⟨"MyShow", "REC", "ch5"⟩, 1)], 0, 0, []⟩) :=
  ⟨(C1_amended geoNone initialState initialState
      ⟨[], [(⟨"MyShow", "REC", "ch5"⟩, 1)], 0, 0, []⟩ .decode
      (.ok (.obj [])) (.ok (.obj [("MyShow", Json.str "REC-ch5")]))
      (.ok (.arr [])) []).2.1 rfl,
   (C1_amended geoNone initialState initialState
      ⟨[], [(⟨"MyShow", "REC", "ch5"⟩, 1)], 0, 0, []⟩ .network
      (.ok (.obj [])) (.ok (.obj [("MyShow", Json.str "REC-ch5")]))
      (.ok (.arr [])) []).2.2 rfl rfl⟩

/-- **C2 (counterexample).**  The claim says a concurrent reader never
observes the streams family with fewer entries than both the pre-cycle and
post-cycle entry count.  With a pre-cycle family of one entry and an activity
mapping that repopulates the same single entry, the observable trace of the
clear-then-repopulate transition is `[pre, ∅, post]`: the middle state has 0
entries while both the pre- and the post-cycle count are 1. -/
theorem C2_counterexample :
    streamsTrace geoNone [(⟨"1.2.3.4", "ch1", none, none⟩, 1)]
        [("a", Json.str "ch1 x 1.2.3.4")]
      = [[(⟨"1.2.3.4", "ch1", none, none⟩, 1)], [],
          [(⟨"1.2.3.4", "ch1", none, none⟩, 1)]] ∧
    ([] : List (StreamLabels × Int)).length
      < [(((⟨"1.2.3.4", "ch1", none, none⟩ : StreamLabels), (1 : Int)))].length :=
  ⟨rfl, by decide⟩

/-- **C2 (amended).**  The clear-then-repopulate transition of the streams
family is not guarded: for every pre-cycle family and activity list the
observable trace contains the empty family (the window right after
`clear()`), and the last observable state is the fully repopulated family
that `fetch_dvr` commits. -/
theorem C2_amended (lookup : GeoLookup) (fam0 : List (StreamLabels × Int))
    (acts : List (String × Json)) :
    ([] : List (StreamLabels × Int)) ∈ streamsTrace lookup fam0 acts ∧
    (streamsTrace lookup fam0 acts).getLast?
      = some (streamsLoop lookup [] acts).1 :=
  ⟨nil_mem_streamsTrace lookup fam0 acts, streamsTrace_last lookup fam0 acts⟩

/-- **C6.**  For the loopback IP `"127.0.0.1"` the geo backend is never
invoked (the instrumentation trace of invocations is empty) and the
coordinates are absent; for any other IP a raising lookup is swallowed and
the coordinates are absent; and the enclosing activity loop finishes without
error on every all-string activity mapping, whatever the backend does, so
the processing of the remaining entries is never interrupted. -/
theorem C6_geo_failures_absorbed (lookup : GeoLookup) (ip : String) :
    geoEnrichT lookup "127.0.0.1" = ((none, none), []) ∧
    (ip ≠ "127.0.0.1" → ∀ e, lookup ip = .error e →
      geoEnrich lookup ip = (none, none)) ∧
    ∀ (acts : List (String × Json)) (fam : List (StreamLabels × Int)),
      (∀ kv ∈ acts, ∃ st, kv.2 = Json.str st) →
      (streamsLoop lookup fam acts).2 = none := by
  refine ⟨?_, ?_, ?_⟩
  · unfold geoEnrichT
    rw [if_neg (by simp)]
  · intro hne e herr
    unfold geoEnrich geoEnrichT
    by_cases hg : ip ≠ "" ∧ ip ≠ "127.0.0.1"
    · rw [if_pos hg]
      show (match lookup ip with
        | .error _ => (none, none)
        | .ok none => (none, none)
        | .ok (some p) => (some p.1, some p.2))
        = ((none, none) : Option Int × Option Int)
      rw [herr]
    · rw [if_neg hg]
  · intro acts fam h
    rw [streamsLoop_eq lookup acts fam h]

/-- Witness for C6: a backend that always raises is never consulted for the
loopback IP, its raise on `"10.0.0.5"` is absorbed, and an activity mapping
processed with it completes without error. -/
theorem C6_witness :
    geoEnrichT geoRaise "127.0.0.1" = ((none, none), []) ∧
    geoEnrich geoRaise "10.0.0.5" = (none, none) ∧
    (streamsLoop geoRaise []
      [("a1", Json.str "ch12 Streaming from 10.0.0.5")]).2 = none := by
  obtain ⟨h1, h2, h3⟩ := C6_geo_failures_absorbed geoRaise "10.0.0.5"
  exact ⟨h1, h2 (by decide) () rfl,
    h3 [("a1", Json.str "ch12 Streaming from 10.0.0.5")] [] (by simp)⟩

/-- **C7.**  A fetch or JSON-decode failure in a sub-step raises before that
sub-step's `clear()` (the source clears only after `requests.get` and
`.json()` both succeeded), so the whole registry — in particular the
affected family's previously published entries — is left exactly as it was. -/
theorem C7_fetch_failure_preserves_families (lookup : GeoLookup)
    (s : MetricsState) (e : FetchErr) :
    fetch_dvr lookup s (.error e) = .error (.fetch e, s) ∧
    fetch_recordings s (.error e) = .error (.fetch e, s) ∧
    fetch_clients s (.error e) = .error (.fetch e, s) :=
  ⟨rfl, rfl, rfl⟩

/-- **C8.**  For every successfully processed dvr response,
`channels_shows` is set to the response's `guide.num_shows` and
`channels_airings` to `guide.num_airings`, each defaulting to 0 when the
`guide` object or the field is absent. -/
theorem C8_guide_counts {lookup : GeoLookup} {s s2 : MetricsState}
    {fields g : List (String × Json)}
    (h : fetch_dvr lookup s (.ok (.obj fields)) = .ok s2)
    (hg : pyGetD fields "guide" (.obj []) = .obj g) :
    (∀ n : Int, pyGetD g "num_shows" (.num 0) = .num n → s2.shows = n) ∧
    (∀ n : Int, pyGetD g "num_airings" (.num 0) = .num n → s2.airings = n) ∧
    ((∀ v, ("num_shows", v) ∉ g) → s2.shows = 0) ∧
    ((∀ v, ("num_airings", v) ∉ g) → s2.airings = 0) ∧
    ((∀ v, ("guide", v) ∉ fields) → s2.shows = 0 ∧ s2.airings = 0) := by
  obtain ⟨fields2, acts, g2, ns, na, hf, hact, hloop, hg2, hns, hna, hstate⟩ :=
    fetch_dvr_ok_inv h
  obtain rfl := Json.obj.inj hf
  obtain rfl : g = g2 := (Json.obj.inj (hg2.symm.trans hg)).symm
  have hshows : s2.shows = ns := by rw [hstate]
  have hairs : s2.airings = na := by rw [hstate]
  refine ⟨?_, ?_, ?_, ?_, ?_⟩
  · intro n hn
    rw [hn] at hns
    simp only [pyFloat, Option.some.injEq] at hns
    rw [hshows, ← hns]
  · intro n hn
    rw [hn] at hna
    simp only [pyFloat, Option.some.injEq] at hna
    rw [hairs, ← hna]
  · intro habs
    rw [pyGetD_of_absent habs] at hns
    simp only [pyFloat, Option.some.injEq] at hns
    rw [hshows, ← hns]
  · intro habs
    rw [pyGetD_of_absent habs] at hna
    simp only [pyFloat, Option.some.injEq] at hna
    rw [hairs, ← hna]
  · intro habs
    have hge : pyGetD fields "guide" (.obj []) = .obj [] :=
      pyGetD_of_absent habs _
    obtain rfl : g = [] := Json.obj.inj (hg.symm.trans hge)
    have h0s : pyGetD ([] : List (String × Json)) "num_shows" (.num 0)
        = .num 0 := rfl
    have h0a : pyGetD ([] : List (String × Json)) "num_airings" (.num 0)
        = .num 0 := rfl
    rw [h0s] at hns
    rw [h0a] at hna
    simp only [pyFloat, Option.some.injEq] at hns hna
    constructor
    · rw [hshows, ← hns]
    · rw [hairs, ← hna]

/-- Witness for C8 on the spec's scenario 1: `guide` holds
`num_shows = 40` and `num_airings = 900`. -/
theorem C8_witness :
    (⟨[(⟨"10.0.0.5", "ch12", none, none⟩, 1)], [], 40, 900, []⟩
      : MetricsState).shows = 40 ∧
    (⟨[(⟨"10.0.0.5", "ch12", none, none⟩, 1)], [], 40, 900, []⟩
      : MetricsState).airings = 900 := by
  have h := @C8_guide_counts geoNone initialState
    ⟨[(⟨"10.0.0.5", "ch12", none, none⟩, 1)], [], 40, 900, []⟩
    [("activity", .obj [("a1", Json.str "ch12 Streaming from 10.0.0.5")]),
      ("guide", .obj [("num_shows", Json.num 40), ("num_airings", Json.num 900)])]
    [("num_shows", Json.num 40), ("num_airings", Json.num 900)]
    rfl rfl
  exact ⟨h.1 40 rfl, h.2.1 900 rfl⟩

lemma runCycle_ok_inv {lookup : GeoLookup} {s s3 : MetricsState}
    {inp : CycleInput} (h : runCycle lookup s inp = .ok s3) :
    ∃ s1 s2, fetch_dvr lookup s inp.dvr = .ok s1 ∧
      fetch_recordings s1 inp.programs = .ok s2 ∧
      fetch_clients s2 inp.clientsInfo = .ok s3 := by
  unfold runCycle at h
  split at h
  · exact absurd h (by simp)
  · rename_i s1 h1
    split at h
    · exact absurd h (by simp)
    · rename_i s2 h2
      exact ⟨s1, s2, h1, h2, h⟩

/-- **C9.**  After a successful cycle, each labelled family holds exactly
the label combinations derived from that cycle's response, every entry with
value exactly 1; a combination present before the cycle but absent from this
response's derived set is gone (not reported as zero). -/
theorem C9_entry_sets_replaced {lookup : GeoLookup} {s s3 : MetricsState}
    {fields acts entries : List (String × Json)} {jc : Json}
    {items : List Json}
    (hrun : runCycle lookup s
      ⟨.ok (.obj fields), .ok (.obj entries), .ok jc⟩ = .ok s3)
    (hact : pyGetD fields "activity" (.obj []) = .obj acts)
    (hiter : pyIter jc = some items) :
    (∀ lab v, ((lab, v) ∈ s3.streams ↔
      (v = 1 ∧ lab ∈ streamsOf lookup (strValues acts)))) ∧
    (∀ lab v, ((lab, v) ∈ s3.recordings ↔
      (v = 1 ∧ lab ∈ recordingsOf entries))) ∧
    (∀ lab v, ((lab, v) ∈ s3.clients ↔
      (v = 1 ∧ lab ∈ clientsOf items))) ∧
    (∀ lab v w, (lab, v) ∈ s.streams →
      lab ∉ streamsOf lookup (strValues acts) → (lab, w) ∉ s3.streams) ∧
    (∀ lab v w, (lab, v) ∈ s.recordings →
      lab ∉ recordingsOf entries → (lab, w) ∉ s3.recordings) ∧
    (∀ lab v w, (lab, v) ∈ s.clients →
      lab ∉ clientsOf items → (lab, w) ∉ s3.clients) := by
  obtain ⟨s1, s2, h1, h2, h3⟩ := runCycle_ok_inv hrun
  obtain ⟨fields2, acts2, g, ns, na, hf, hact2, hloop1, -, -, -, hs1⟩ :=
    fetch_dvr_ok_inv h1
  obtain rfl := Json.obj.inj hf
  obtain rfl : acts = acts2 := (Json.obj.inj (hact2.symm.trans hact)).symm
  obtain ⟨entries2, he, hloop2, hs2⟩ := fetch_recordings_ok_inv h2
  obtain rfl := Json.obj.inj he
  obtain ⟨items2, hiter2, hloop3, hs3⟩ := fetch_clients_ok_inv h3
  obtain rfl : items = items2 := (Option.some.inj (hiter2.symm.trans hiter)).symm
  have heq1 := streamsLoop_eq lookup acts []
    (streamsLoop_ok_strings lookup acts [] s1.streams hloop1)
  rw [hloop1] at heq1
  have hstreams1 : s1.streams = publishAll (streamsOf lookup (strValues acts)) :=
    congrArg Prod.fst heq1
  have heq2 := recordingsLoop_eq entries []
    (recordingsLoop_ok_strings entries [] s2.recordings hloop2)
  rw [hloop2] at heq2
  have hrecs2 : s2.recordings = publishAll (recordingsOf entries) :=
    congrArg Prod.fst heq2
  have heq3 := clientsLoop_eq items []
    (clientsLoop_ok_objs items [] s3.clients hloop3)
  rw [hloop3] at heq3
  have hcli3 : s3.clients = publishAll (clientsOf items) :=
    congrArg Prod.fst heq3
  have hstr3 : s3.streams = s1.streams := by rw [hs3, hs2]
  have hrec3 : s3.recordings = s2.recordings := by rw [hs3]
  have hiff1 : ∀ lab v, ((lab, v) ∈ s3.streams ↔
      (v = 1 ∧ lab ∈ streamsOf lookup (strValues acts))) := by
    intro lab v
    rw [hstr3, hstreams1]
    exact mem_publishAll
  have hiff2 : ∀ lab v, ((lab, v) ∈ s3.recordings ↔
      (v = 1 ∧ lab ∈ recordingsOf entries)) := by
    intro lab v
    rw [hrec3, hrecs2]
    exact mem_publishAll
  have hiff3 : ∀ lab v, ((lab, v) ∈ s3.clients ↔
      (v = 1 ∧ lab ∈ clientsOf items)) := by
    intro lab v
    rw [hcli3]
    exact mem_publishAll
  refine ⟨hiff1, hiff2, hiff3, ?_, ?_, ?_⟩
  · intro lab v w _ habs hw
    exact habs ((hiff1 lab w).mp hw).2
  · intro lab v w _ habs hw
    exact habs ((hiff2 lab w).mp hw).2
  · intro lab v w _ habs hw
    exact habs ((hiff3 lab w).mp hw).2

/-- Witness for C9: one full successful cycle over the spec's three
scenario responses, checked at the concrete label combinations each
response derives. -/
theorem C9_witness :
    (((⟨"10.0.0.5", "ch12", none, none⟩ : StreamLabels), (1 : Int)) ∈
      (⟨[(⟨"10.0.0.5", "ch12", none, none⟩, 1)],
        [(⟨"MyShow", "REC", "ch5"⟩, 1)], 40, 900,
        [(⟨none, none, none, none, none, none, some (.str "abc"), none, none,
          some (.str "1.2.3.4"), none, none⟩, 1)]⟩ : MetricsState).streams ↔
      ((1 : Int) = 1 ∧ (⟨"10.0.0.5", "ch12", none, none⟩ : StreamLabels) ∈
        streamsOf geoNone (strValues
          [("a1", Json.str "ch12 Streaming from 10.0.0.5")]))) ∧
    (((⟨"MyShow", "REC", "ch5"⟩ : RecordingLabels), (1 : Int)) ∈
      (⟨[(⟨"10.0.0.5", "ch12", none, none⟩, 1)],
        [(⟨"MyShow", "REC", "ch5"⟩, 1)], 40, 900,
        [(⟨none, none, none, none, none, none, some (.str "abc"), none, none,
          some (.str "1.2.3.4"), none, none⟩, 1)]⟩ : MetricsState).recordings ↔
      ((1 : Int) = 1 ∧ (⟨"MyShow", "REC", "ch5"⟩ : RecordingLabels) ∈
        recordingsOf [("MyShow", Json.str "REC-ch5-details")])) := by
  have h := @C9_entry_sets_replaced geoNone initialState
    ⟨[(⟨"10.0.0.5", "ch12", none, none⟩, 1)],
      [(⟨"MyShow", "REC", "ch5"⟩, 1)], 40, 900,
      [(⟨none, none, none, none, none, none, some (.str "abc"), none, none,
        some (.str "1.2.3.4"), none, none⟩, 1)]⟩
    [("activity", .obj [("a1", Json.str "ch12 Streaming from 10.0.0.5")]),
      ("guide", .obj [("num_shows", Json.num 40), ("num_airings", Json.num 900)])]
    [("a1", Json.str "ch12 Streaming from 10.0.0.5")]
    [("MyShow", Json.str "REC-ch5-details")]
    (.arr [.obj [("id", Json.str "abc"), ("remote_ip", Json.str "1.2.3.4")]])
    [.obj [("id", Json.str "abc"), ("remote_ip", Json.str "1.2.3.4")]]
    rfl rfl rfl
  exact ⟨h.1 _ 1, h.2.1 _ 1⟩

end ChannelsExporter
